import Mathlib

/-!
Verification of the station-data reconciliation and normalization layer
(data.js: `fetchHydrometricStationMeta`, `fetchHydrometricRealtimeLatest`,
`fetchArcGISLayerGeoJSON`, `tryOrNull`).

The JavaScript source is embedded shallowly:

* A feature's `properties` object is modelled by `Props`, recording the
  attributes the code reads (`STATION_NUMBER`, `PARAMETER`, `DATE`) as
  `Option String` (`none` = absent/undefined) plus an opaque list of the
  remaining attributes.  No arithmetic is ever performed on attribute
  values, so strings suffice as carriers.
* GeoJSON geometry is `Geometry`; its `coordinates` field is
  `Option (List Int)` where `none` models "not an array" (the code's
  `Array.isArray` test) and `some l` an array of numbers.  Coordinates are
  only destructured and swapped, never computed with, so `Int` is an
  adequate carrier for JS numbers.
* A network round trip (the resolved/rejected promise of `tryCql` /
  `tryUnfiltered`, covering transport errors, non-ok statuses and body
  parse failures) is modelled by `Except String FeatureJson`; the
  orchestration `tryCql().catch(e => tryUnfiltered())` becomes
  `obtainJson`, which also reports whether the fallback request was
  issued.
* `new Date(s)` is modelled by an arbitrary parse function
  `Option String → Option Int`: `some t` is a valid date with numeric
  value `t`, `none` is JS's Invalid Date (valueOf NaN).  The comparison
  `new Date(a) > new Date(b)` is `jsDateGT`: NaN makes every `<`/`>`
  comparison false, which `jsDateGT` reproduces.
* The JS `Map` keyed by `row.PARAMETER` (a possibly-undefined key) is an
  association list over `Option String` keys; `Map.set` on a fresh key
  appends, on an existing key replaces in place (`setAssoc`), and
  `Array.from(map.values())` is `List.map Prod.snd` — all matching JS
  `Map` insertion-order semantics.
-/

namespace Water

/-- The attributes of one GeoJSON feature's `properties` object, as read by
the code.  `none` models an absent (undefined) or null field. -/
structure Props where
  STATION_NUMBER : Option String
  PARAMETER : Option String
  DATE : Option String
  extra : List (String × String)
deriving DecidableEq

/-- The empty JS object `{}` used by `f.properties || {}`. -/
def emptyProps : Props := ⟨none, none, none, []⟩

/-- GeoJSON geometry: `coordinates` is `some l` when the field is an array
(of JS numbers), `none` when it is missing or not an array. -/
structure Geometry where
  coordinates : Option (List Int)
deriving DecidableEq

/-- One GeoJSON feature; `geometry = none` models a null or missing
geometry object (falsy in the `!f.geometry` test). -/
structure Feature where
  properties : Option Props
  geometry : Option Geometry
deriving DecidableEq

/-- A parsed response body: `json.features` may be absent
(`json.features || []`). -/
structure FeatureJson where
  features : Option (List Feature)
deriving DecidableEq

/-- Model of `(p.STATION_NUMBER || "").toString()`: absent/null coerces to `""`,
a string is returned unchanged (`""` is falsy but `"" || ""` is `""`). -/
def stationKey (p : Props) : String := p.STATION_NUMBER.getD ""

/-- Model of `(x.properties?.STATION_NUMBER || "").toString()` on a feature:
optional chaining yields undefined when `properties` is absent. -/
def featStationKey (f : Feature) : String :=
  match f.properties with
  | none => ""
  | some p => stationKey p

/-- Model of `feats.find(x => ...) || feats[0]`:
the first exact string match, else the first element (undefined when the
list is empty). -/
def selectFeature (stationNumber : String) (feats : List Feature) : Option Feature :=
  match feats.find? (fun x => featStationKey x == stationNumber) with
  | some f => some f
  | none => feats.head?

/-- The normalized station record `{ lat, lon, props }` returned by
`fetchHydrometricStationMeta`.  `lat`/`lon` are `Option` because JS array
destructuring of a too-short array yields undefined. -/
structure MetaRecord where
  lat : Option Int
  lon : Option Int
  props : Props
deriving DecidableEq

/-- The tail of `fetchHydrometricStationMeta` after a feature has been
selected: geometry validation (`!f || !f.geometry || !Array.isArray(f.geometry.coordinates)`
throws `No geometry for station ...`), then `const [lon, lat] = f.geometry.coordinates`
and `return { lat, lon, props: f.properties || {} }`. -/
def buildMeta (stationNumber : String) (f? : Option Feature) : Except String MetaRecord :=
  match f? with
  | none => .error ("No geometry for station " ++ stationNumber)
  | some f =>
    match f.geometry with
    | none => .error ("No geometry for station " ++ stationNumber)
    | some g =>
      match g.coordinates with
      | none => .error ("No geometry for station " ++ stationNumber)
      | some coords =>
        .ok { lat := coords.get? 1, lon := coords.get? 0,
              props := f.properties.getD emptyProps }

/-- Model of `await tryCql().catch(e => tryUnfiltered())`: the fallback request is
issued exactly when the primary promise rejects; the Bool records whether
the fallback HTTP request was issued. -/
def obtainJson (primary fallback : Except String FeatureJson) :
    Except String FeatureJson × Bool :=
  match primary with
  | .ok j => (.ok j, false)
  | .error _ => (fallback, true)

/-- Model of `fetchHydrometricStationMeta`, given the outcomes of the primary (CQL)
and fallback (unfiltered) requests.  Returns the result together with
whether the fallback request was issued. -/
def fetchHydrometricStationMeta (stationNumber : String)
    (primary fallback : Except String FeatureJson) :
    Except String MetaRecord × Bool :=
  match obtainJson primary fallback with
  | (.error e, usedFallback) => (.error e, usedFallback)
  | (.ok json, usedFallback) =>
    let feats := json.features.getD []
    (buildMeta stationNumber (selectFeature stationNumber feats), usedFallback)

/-- JS truthiness of the `STATION_NUMBER` attribute value in
`!rows[0].STATION_NUMBER`: absent/null and `""` are falsy. -/
def snTruthy : Option String → Bool
  | none => false
  | some s => !(s == "")

/-- The local filtering step of `fetchHydrometricRealtimeLatest`:
`if (rows.length && !rows[0].STATION_NUMBER) keep all else filter by
(r.STATION_NUMBER || "").toString() === stationNumber`. -/
def localFilter (stationNumber : String) (rows : List Props) : List Props :=
  match rows with
  | [] => []
  | r0 :: _ =>
    if !(snTruthy r0.STATION_NUMBER) then rows
    else rows.filter (fun r => stationKey r == stationNumber)

/-- Model of `new Date(a) > new Date(b)` where `parse` stands for `new Date`'s
conversion to a numeric time value (`none` = Invalid Date, valueOf NaN).
Any comparison involving NaN is false in JS, so the result is `true` only
when both sides parse and the left is strictly later. -/
def jsDateGT (parse : Option String → Option Int) (a b : Option String) : Bool :=
  match parse a, parse b with
  | some x, some y => decide (y < x)
  | _, _ => false

/-- Model of `byParam.get(key)` on the association-list form of the JS `Map`. -/
def getAssoc (k : Option String) : List (Option String × Props) → Option Props
  | [] => none
  | (k', v') :: rest => if k' = k then some v' else getAssoc k rest

/-- Model of `byParam.set(key, v)` when `key` is already present: replace the value
in place, keeping the entry's position (JS `Map` semantics). -/
def setAssoc (k : Option String) (v : Props) :
    List (Option String × Props) → List (Option String × Props)
  | [] => []
  | (k', v') :: rest => if k' = k then (k', v) :: rest else (k', v') :: setAssoc k v rest

/-- One iteration of the dedup loop:
`const prev = byParam.get(key); if (!prev || new Date(row.DATE) > new Date(prev.DATE)) byParam.set(key, row)`.
A fresh key appends (JS `Map` insertion order); an existing key is
replaced in place only when the comparison is strictly greater. -/
def dedupStep (parse : Option String → Option Int)
    (m : List (Option String × Props)) (row : Props) :
    List (Option String × Props) :=
  match getAssoc row.PARAMETER m with
  | none => m ++ [(row.PARAMETER, row)]
  | some prev =>
    if jsDateGT parse row.DATE prev.DATE then setAssoc row.PARAMETER row m else m

/-- The full dedup fold `for (const row of rows) ...` building `byParam`. -/
def dedupAssoc (parse : Option String → Option Int) (rows : List Props) :
    List (Option String × Props) :=
  rows.foldl (dedupStep parse) []

/-- Model of `Array.from(byParam.values())`: the deduplicated rows in key insertion
order. -/
def dedupByParam (parse : Option String → Option Int) (rows : List Props) :
    List Props :=
  (dedupAssoc parse rows).map Prod.snd

/-- Modelled from the spec's comparison order for timestamps ("invalid or
unparsable timestamps compare as earlier than any valid timestamp"): the
claimed `≥` relation on parsed timestamps.  Defined from the spec's words,
to be compared with the code's `jsDateGT`. -/
def specTsGE (parse : Option String → Option Int) (a b : Option String) : Bool :=
  match parse a, parse b with
  | some x, some y => decide (y ≤ x)
  | some _, none => true
  | none, some _ => false
  | none, none => true

/-- The loop invariant of the dedup fold: after folding `processed`, the
accumulated map `m` has distinct keys, every entry is keyed by its row's
own `PARAMETER`, every kept row is one of the processed rows, the key set
equals the set of parameter keys seen so far, and — when every processed
timestamp parses — each kept row's timestamp is at least every same-key
processed row's timestamp. -/
structure DedupInv (parse : Option String → Option Int) (processed : List Props)
    (m : List (Option String × Props)) : Prop where
  nodup : (m.map Prod.fst).Nodup
  keyed : ∀ kv ∈ m, (Prod.snd kv).PARAMETER = Prod.fst kv
  mem : ∀ kv ∈ m, Prod.snd kv ∈ processed
  keys : ∀ k, k ∈ m.map Prod.fst ↔ k ∈ processed.map Props.PARAMETER
  latest : (∀ r ∈ processed, (parse r.DATE).isSome) →
    ∀ kv ∈ m, ∀ r ∈ processed, r.PARAMETER = Prod.fst kv →
      specTsGE parse (Prod.snd kv).DATE r.DATE = true

/-- Model of `fetchHydrometricRealtimeLatest`, given the outcomes of the primary
and fallback requests: obtain a body (primary, else fallback), flatten
`features` to `properties`, locally filter, dedup per parameter. -/
def fetchHydrometricRealtimeLatest (stationNumber : String)
    (parse : Option String → Option Int)
    (primary fallback : Except String FeatureJson) :
    Except String (List Props) :=
  match (obtainJson primary fallback).1 with
  | .error e => .error e
  | .ok json =>
    let rows := (json.features.getD []).map (fun f => f.properties.getD emptyProps)
    .ok (dedupByParam parse (localFilter stationNumber rows))

/-- An HTTP response as observed by `fetchArcGISLayerGeoJSON`: the `ok`
flag, the numeric status, and the parsed body (opaque — the code never
inspects it). -/
structure HttpResponse (α : Type) where
  ok : Bool
  status : Nat
  body : α
deriving DecidableEq

/-- Model of `fetchArcGISLayerGeoJSON`: a single request; on `!r.ok` it throws
`new Error(` followed by `ArcGIS layer: ` and the status`)`; on success it
returns `r.json()` verbatim. -/
def fetchArcGISLayerGeoJSON {α : Type} (featureServerUrl : String)
    (resp : HttpResponse α) : Except String α :=
  if resp.ok then .ok resp.body
  else .error ("ArcGIS layer: " ++ toString resp.status)

/-- A JS rejection value as read by `tryOrNull`: an optional `message`
field plus the string the value would display as in a template literal. -/
structure RejectionValue where
  message : Option String
  display : String
deriving DecidableEq

/-- Model of `e.message || e`: the `message` field when present and truthy
(non-empty), otherwise the value's own string form. -/
def rejectionText (e : RejectionValue) : String :=
  match e.message with
  | some m => if m == "" then e.display else m
  | none => e.display

/-- Model of `tryOrNull(promise, label)`: the resolved value on fulfilment; on
rejection, log one warning line and return null.  The second component is
the list of diagnostic lines emitted. -/
def tryOrNull {α : Type} (label : String) (outcome : Except RejectionValue α) :
    Option α × List String :=
  match outcome with
  | .ok v => (some v, [])
  | .error e => (none, ["⚠️ " ++ label ++ " " ++ rejectionText e])

/-- A concrete stand-in for `new Date`: `t0`, `t1`, `t2` parse to times
0, 1, 2; everything else is Invalid Date. -/
def cParse : Option String → Option Int
  | some "t0" => some 0
  | some "t1" => some 1
  | some "t2" => some 2
  | _ => none

/-- Concrete observation row: station 05JF003, parameter Level, time t0. -/
def rowT0 : Props := ⟨some "05JF003", some "Level", some "t0", []⟩

/-- Concrete observation row: station 05JF003, parameter Level, time t1. -/
def rowT1 : Props := ⟨some "05JF003", some "Level", some "t1", []⟩

/-- A second Level row with the same timestamp `t1` but different extra
attributes, for tie-breaking tests. -/
def rowT1dup : Props := ⟨some "05JF003", some "Level", some "t1", [("VALUE", "9")]⟩

/-- Concrete observation row whose `DATE` does not parse. -/
def rowBad : Props := ⟨some "05JF003", some "Level", some "bad", []⟩

/-- Concrete feature for station A at [10, 50]. -/
def featA : Feature := ⟨some ⟨some "A", none, none, []⟩, some ⟨some [10, 50]⟩⟩

/-- Concrete feature for station B at [11, 51]. -/
def featB : Feature := ⟨some ⟨some "B", none, none, []⟩, some ⟨some [11, 51]⟩⟩

/-- Concrete feature for station C at [12, 52]. -/
def featC : Feature := ⟨some ⟨some "C", none, none, []⟩, some ⟨some [12, 52]⟩⟩

/-- A feature whose geometry has a zero-length coordinates array. -/
def featNoLen : Feature := ⟨some ⟨some "05JF003", none, none, []⟩, some ⟨some []⟩⟩

/-- Response body containing only station A. -/
def jsonA : FeatureJson := ⟨some [featA]⟩

/-- Response body containing stations A, B and C. -/
def jsonABC : FeatureJson := ⟨some [featA, featB, featC]⟩

/-- Response body with an empty feature list. -/
def jsonEmpty : FeatureJson := ⟨some []⟩

/-- A failed HTTP response with status 500 (body type irrelevant). -/
def resp500 : HttpResponse Nat := ⟨false, 500, 0⟩

/-- A rejection value with no `message` field, only a display form. -/
def noMsgRejection : RejectionValue := ⟨none, "SomeObject"⟩

/-- A row lacking the `PARAMETER` attribute, at time t0. -/
def rowNoParam : Props := ⟨some "05JF003", none, some "t0", []⟩

/-- Another row lacking the `PARAMETER` attribute, at time t1. -/
def rowNoParam2 : Props := ⟨some "05JF003", none, some "t1", []⟩

/-! ### Helper lemmas -/

/-- Searching a list that splits as `l₁ ++ f :: l₂` with no match in
`l₁` and a match at `f` returns `f` (the first match). -/
theorem find?_append_first {α : Type} (p : α → Bool) :
    ∀ (l₁ : List α) (f : α) (l₂ : List α), p f = true → (∀ g ∈ l₁, p g = false) →
      (l₁ ++ f :: l₂).find? p = some f := by
  intro l₁
  induction l₁ with
  | nil =>
    intro f l₂ hf _
    exact List.find?_cons_of_pos _ hf
  | cons g t ih =>
    intro f l₂ hf hn
    have hg : p g = false := hn g (by simp)
    rw [List.cons_append, List.find?_cons_of_neg _ (by simp [hg])]
    exact ih f l₂ hf (fun x hx => hn x (by simp [hx]))

/-- Lookup by `getAssoc` misses exactly when the key is absent from the map. -/
theorem getAssoc_eq_none_iff {k : Option String} :
    ∀ {m : List (Option String × Props)}, getAssoc k m = none ↔ k ∉ m.map Prod.fst := by
  intro m
  induction m with
  | nil => simp [getAssoc]
  | cons kv rest ih =>
    obtain ⟨k', v'⟩ := kv
    by_cases hk : k' = k
    · subst hk
      simp [getAssoc]
    · simp [getAssoc, hk, Ne.symm hk, ih]

/-- A `getAssoc` hit is an entry of the map. -/
theorem getAssoc_mem {k : Option String} {v : Props} :
    ∀ {m : List (Option String × Props)}, getAssoc k m = some v → (k, v) ∈ m := by
  intro m
  induction m with
  | nil => intro h; simp [getAssoc] at h
  | cons kv rest ih =>
    obtain ⟨k', v'⟩ := kv
    intro h
    by_cases hk : k' = k
    · subst hk
      simp only [getAssoc, if_pos, Option.some.injEq] at h
      subst h
      exact List.mem_cons_self _ _
    · simp only [getAssoc, if_neg hk] at h
      exact List.mem_cons_of_mem _ (ih h)

/-- Replacement in place by `setAssoc` preserves the key list. -/
theorem setAssoc_keys (k : Option String) (v : Props) :
    ∀ (m : List (Option String × Props)),
      (setAssoc k v m).map Prod.fst = m.map Prod.fst := by
  intro m
  induction m with
  | nil => rfl
  | cons kv rest ih =>
    obtain ⟨k', v'⟩ := kv
    by_cases hk : k' = k
    · simp [setAssoc, hk]
    · simp [setAssoc, hk, ih]

/-- With distinct keys, every entry of `setAssoc k v m` is either an
untouched entry of `m` (whose key is not `k`) or the replacement. -/
theorem setAssoc_mem {k : Option String} {v : Props} {kv : Option String × Props} :
    ∀ {m : List (Option String × Props)}, (m.map Prod.fst).Nodup →
      kv ∈ setAssoc k v m → (kv ∈ m ∧ kv.1 ≠ k) ∨ kv = (k, v) := by
  intro m
  induction m with
  | nil => intro _ h; simp [setAssoc] at h
  | cons hd rest ih =>
    obtain ⟨k', v'⟩ := hd
    intro hnodup hmem
    rw [List.map_cons] at hnodup
    obtain ⟨hnotin, hrest⟩ := List.nodup_cons.mp hnodup
    by_cases hk : k' = k
    · subst hk
      simp only [setAssoc, if_pos] at hmem
      rcases List.mem_cons.mp hmem with rfl | hkv
      · exact Or.inr rfl
      · have hne : kv.1 ≠ k' := fun he => hnotin (List.mem_map.mpr ⟨kv, hkv, he⟩)
        exact Or.inl ⟨List.mem_cons_of_mem _ hkv, hne⟩
    · simp only [setAssoc, if_neg hk] at hmem
      rcases List.mem_cons.mp hmem with rfl | hkv
      · exact Or.inl ⟨List.mem_cons_self _ _, hk⟩
      · rcases ih hrest hkv with ⟨h1, h2⟩ | h3
        · exact Or.inl ⟨List.mem_cons_of_mem _ h1, h2⟩
        · exact Or.inr h3

/-- With distinct keys, the entry found by `getAssoc` is the only entry
with its key. -/
theorem getAssoc_unique {k : Option String} {prev : Props} {kv : Option String × Props} :
    ∀ {m : List (Option String × Props)}, (m.map Prod.fst).Nodup →
      getAssoc k m = some prev → kv ∈ m → kv.1 = k → kv.2 = prev := by
  intro m
  induction m with
  | nil => intro _ h; simp [getAssoc] at h
  | cons hd rest ih =>
    obtain ⟨k', v'⟩ := hd
    intro hnodup hget hmem hk1
    rw [List.map_cons] at hnodup
    obtain ⟨hnotin, hrest⟩ := List.nodup_cons.mp hnodup
    by_cases hk : k' = k
    · subst hk
      simp only [getAssoc, if_pos, Option.some.injEq] at hget
      rcases List.mem_cons.mp hmem with rfl | hkv
      · exact hget
      · exact absurd (List.mem_map.mpr ⟨kv, hkv, hk1⟩) hnotin
    · simp only [getAssoc, if_neg hk] at hget
      rcases List.mem_cons.mp hmem with rfl | hkv
      · exact absurd hk1 hk
      · exact ih hrest hget hkv hk1

/-- The spec-side order is reflexive on valid timestamps. -/
theorem specTsGE_refl {parse : Option String → Option Int} {a : Option String}
    (h : (parse a).isSome) : specTsGE parse a a = true := by
  rcases Option.isSome_iff_exists.mp h with ⟨x, hx⟩
  simp [specTsGE, hx]

/-- The code's comparison succeeds exactly when both timestamps parse and
the left is strictly later. -/
theorem jsDateGT_iff {parse : Option String → Option Int} {a b : Option String} :
    jsDateGT parse a b = true ↔
      ∃ x y, parse a = some x ∧ parse b = some y ∧ y < x := by
  cases hpa : parse a <;> cases hpb : parse b <;> simp [jsDateGT, hpa, hpb]

/-- The spec-side order between two valid timestamps is the numeric
order of their parsed values. -/
theorem specTsGE_some_some {parse : Option String → Option Int} {a b : Option String}
    {x y : Int} (hx : parse a = some x) (hy : parse b = some y) :
    specTsGE parse a b = decide (y ≤ x) := by
  simp [specTsGE, hx, hy]

/-- One dedup step preserves the fold invariant. -/
theorem dedupInv_step {parse : Option String → Option Int} {processed : List Props}
    {m : List (Option String × Props)} (row : Props) (h : DedupInv parse processed m) :
    DedupInv parse (processed ++ [row]) (dedupStep parse m row) := by
  cases hget : getAssoc row.PARAMETER m with
  | none =>
    have hstep : dedupStep parse m row = m ++ [(row.PARAMETER, row)] := by
      unfold dedupStep
      rw [hget]
    have hknot : row.PARAMETER ∉ m.map Prod.fst := getAssoc_eq_none_iff.mp hget
    rw [hstep]
    refine ⟨?_, ?_, ?_, ?_, ?_⟩
    · rw [List.map_append]
      refine List.Nodup.append h.nodup (by simp) ?_
      intro a ha hb
      simp only [List.map_cons, List.map_nil, List.mem_singleton] at hb
      subst hb
      exact hknot ha
    · intro kv hkv
      rcases List.mem_append.mp hkv with hkv | hkv
      · exact h.keyed kv hkv
      · simp only [List.mem_singleton] at hkv
        subst hkv
        rfl
    · intro kv hkv
      rcases List.mem_append.mp hkv with hkv | hkv
      · exact List.mem_append_left _ (h.mem kv hkv)
      · simp only [List.mem_singleton] at hkv
        subst hkv
        simp
    · intro k
      simp only [List.map_append, List.map_cons, List.map_nil, List.mem_append,
        List.mem_singleton]
      exact or_congr (h.keys k) Iff.rfl
    · intro hvalid kv hkv r hr hkey
      have hvalidP : ∀ r' ∈ processed, (parse r'.DATE).isSome := fun r' hr' =>
        hvalid r' (List.mem_append_left _ hr')
      rcases List.mem_append.mp hkv with hkv | hkv
      · rcases List.mem_append.mp hr with hr | hr
        · exact h.latest hvalidP kv hkv r hr hkey
        · exfalso
          simp only [List.mem_singleton] at hr
          rw [hr] at hkey
          exact hknot (List.mem_map.mpr ⟨kv, hkv, hkey.symm⟩)
      · simp only [List.mem_singleton] at hkv
        subst hkv
        rcases List.mem_append.mp hr with hr | hr
        · exfalso
          exact hknot ((h.keys row.PARAMETER).mpr (List.mem_map.mpr ⟨r, hr, hkey⟩))
        · simp only [List.mem_singleton] at hr
          rw [hr]
          show specTsGE parse row.DATE row.DATE = true
          exact specTsGE_refl (hvalid row (by simp))
  | some prev =>
    have hkmem : (row.PARAMETER, prev) ∈ m := getAssoc_mem hget
    have hkin : row.PARAMETER ∈ m.map Prod.fst :=
      List.mem_map.mpr ⟨(row.PARAMETER, prev), hkmem, rfl⟩
    cases hgt : jsDateGT parse row.DATE prev.DATE with
    | false =>
      have hstep : dedupStep parse m row = m := by
        unfold dedupStep
        rw [hget]
        simp [hgt]
      rw [hstep]
      refine ⟨h.nodup, h.keyed, ?_, ?_, ?_⟩
      · intro kv hkv
        exact List.mem_append_left _ (h.mem kv hkv)
      · intro k
        simp only [List.map_append, List.map_cons, List.map_nil, List.mem_append,
          List.mem_singleton]
        constructor
        · intro hk
          exact Or.inl ((h.keys k).mp hk)
        · rintro (hk | rfl)
          · exact (h.keys k).mpr hk
          · exact hkin
      · intro hvalid kv hkv r hr hkey
        have hvalidP : ∀ r' ∈ processed, (parse r'.DATE).isSome := fun r' hr' =>
          hvalid r' (List.mem_append_left _ hr')
        rcases List.mem_append.mp hr with hr | hr
        · exact h.latest hvalidP kv hkv r hr hkey
        · simp only [List.mem_singleton] at hr
          rw [hr] at hkey
          have hkv2 : kv.2 = prev := getAssoc_unique h.nodup hget hkv hkey.symm
          rw [hr, hkv2]
          have hxr : (parse row.DATE).isSome := hvalid row (by simp)
          have hxp : (parse prev.DATE).isSome := hvalidP prev (h.mem _ hkmem)
          rcases Option.isSome_iff_exists.mp hxr with ⟨x, hx⟩
          rcases Option.isSome_iff_exists.mp hxp with ⟨y, hy⟩
          have hnlt : ¬ y < x := by
            intro hlt
            have hgt' : jsDateGT parse row.DATE prev.DATE = true :=
              jsDateGT_iff.mpr ⟨x, y, hx, hy, hlt⟩
            rw [hgt'] at hgt
            exact absurd hgt (by decide)
          rw [specTsGE_some_some hy hx]
          simp only [decide_eq_true_eq]
          omega
    | true =>
      have hstep : dedupStep parse m row = setAssoc row.PARAMETER row m := by
        unfold dedupStep
        rw [hget]
        simp [hgt]
      rw [hstep]
      refine ⟨?_, ?_, ?_, ?_, ?_⟩
      · rw [setAssoc_keys]
        exact h.nodup
      · intro kv hkv
        rcases setAssoc_mem h.nodup hkv with ⟨hkvm, _⟩ | rfl
        · exact h.keyed kv hkvm
        · rfl
      · intro kv hkv
        rcases setAssoc_mem h.nodup hkv with ⟨hkvm, _⟩ | rfl
        · exact List.mem_append_left _ (h.mem kv hkvm)
        · simp
      · intro k
        rw [setAssoc_keys]
        simp only [List.map_append, List.map_cons, List.map_nil, List.mem_append,
          List.mem_singleton]
        constructor
        · intro hk
          exact Or.inl ((h.keys k).mp hk)
        · rintro (hk | rfl)
          · exact (h.keys k).mpr hk
          · exact hkin
      · intro hvalid kv hkv r hr hkey
        have hvalidP : ∀ r' ∈ processed, (parse r'.DATE).isSome := fun r' hr' =>
          hvalid r' (List.mem_append_left _ hr')
        rcases setAssoc_mem h.nodup hkv with ⟨hkvm, hkne⟩ | rfl
        · rcases List.mem_append.mp hr with hr | hr
          · exact h.latest hvalidP kv hkvm r hr hkey
          · exfalso
            simp only [List.mem_singleton] at hr
            rw [hr] at hkey
            exact hkne hkey.symm
        · rcases jsDateGT_iff.mp hgt with ⟨x, y, hx, hy, hlt⟩
          rcases List.mem_append.mp hr with hr | hr
          · have hprevGE : specTsGE parse prev.DATE r.DATE = true :=
              h.latest hvalidP (row.PARAMETER, prev) hkmem r hr hkey
            have hzr : (parse r.DATE).isSome := hvalidP r hr
            rcases Option.isSome_iff_exists.mp hzr with ⟨z, hz⟩
            rw [specTsGE_some_some hy hz] at hprevGE
            show specTsGE parse row.DATE r.DATE = true
            rw [specTsGE_some_some hx hz]
            simp only [decide_eq_true_eq] at hprevGE ⊢
            omega
          · simp only [List.mem_singleton] at hr
            rw [hr]
            show specTsGE parse row.DATE row.DATE = true
            exact specTsGE_refl (hvalid row (by simp))

/-- The fold over any row list preserves the invariant. -/
theorem dedupInv_foldl {parse : Option String → Option Int} (rows : List Props) :
    ∀ {processed : List Props} {m : List (Option String × Props)},
      DedupInv parse processed m →
      DedupInv parse (processed ++ rows) (rows.foldl (dedupStep parse) m) := by
  induction rows with
  | nil =>
    intro processed m h
    simpa using h
  | cons r rs ih =>
    intro processed m h
    have h2 := ih (dedupInv_step r h)
    simpa [List.append_assoc] using h2

/-- The invariant holds of the empty fold state. -/
theorem dedupInv_nil (parse : Option String → Option Int) : DedupInv parse [] [] := by
  constructor <;> simp

/-- The invariant holds of the finished dedup map. -/
theorem dedupInv_main (parse : Option String → Option Int) (rows : List Props) :
    DedupInv parse rows (dedupAssoc parse rows) := by
  simpa [dedupAssoc] using dedupInv_foldl rows (dedupInv_nil parse)

/-- The returned rows' parameter keys are exactly the dedup map's keys. -/
theorem dedupByParam_keys (parse : Option String → Option Int) (rows : List Props) :
    (dedupByParam parse rows).map Props.PARAMETER
      = (dedupAssoc parse rows).map Prod.fst := by
  unfold dedupByParam
  rw [List.map_map]
  exact List.map_congr_left (fun kv hkv => (dedupInv_main parse rows).keyed kv hkv)

/-! ### Claim C1 -/

/-- Claim C1 as stated is false: with an unparsable-timestamp Level row
folded before a valid-timestamp Level row, the returned row for key Level
is the unparsable one, whose timestamp is not ≥ the valid row's timestamp
(under the spec's order, where invalid compares earlier than any valid). -/
theorem claim_C1_counterexample :
    ¬ (∀ kept ∈ dedupByParam cParse [rowBad, rowT1],
        ∀ r ∈ [rowBad, rowT1], r.PARAMETER = kept.PARAMETER →
          specTsGE cParse kept.DATE r.DATE = true) := by
  decide

/-- Claim C1, amended: the dedup pass always returns exactly one row per
distinct parameter key appearing in the input (distinct keys, and a key is
returned iff it appears); and when every input row's timestamp parses as a
valid date, each returned row's timestamp is ≥ the timestamp of every
input row with the same parameter key. -/
theorem claim_C1_amended (parse : Option String → Option Int) (rows : List Props) :
    ((dedupByParam parse rows).map Props.PARAMETER).Nodup ∧
    (∀ k, k ∈ rows.map Props.PARAMETER ↔ k ∈ (dedupByParam parse rows).map Props.PARAMETER) ∧
    ((∀ r ∈ rows, (parse r.DATE).isSome) →
      ∀ kept ∈ dedupByParam parse rows, ∀ r ∈ rows,
        r.PARAMETER = kept.PARAMETER → specTsGE parse kept.DATE r.DATE = true) := by
  have hinv := dedupInv_main parse rows
  have hkeys := dedupByParam_keys parse rows
  refine ⟨?_, ?_, ?_⟩
  · rw [hkeys]
    exact hinv.nodup
  · intro k
    rw [hkeys]
    exact (hinv.keys k).symm
  · intro hvalid kept hkept r hr hkey
    rcases List.mem_map.mp hkept with ⟨kv, hkv, hsnd⟩
    subst hsnd
    exact hinv.latest hvalid kv hkv r hr (by rw [hkey, hinv.keyed kv hkv])

/-- Witness for the amended C1: two valid-timestamp Level rows — the
returned row is the later one and its timestamp is ≥ the earlier's. -/
theorem claim_C1_amended_witness :
    specTsGE cParse rowT1.DATE rowT0.DATE = true :=
  (claim_C1_amended cParse [rowT0, rowT1]).2.2 (by decide) rowT1 (by decide) rowT0
    (by decide) rfl

/-! ### Claim C3 -/

/-- Claim C3 as stated is false: a valid-timestamp row does not replace a
previously kept invalid-timestamp row for the same parameter key — folding
the unparsable row first, the valid row is discarded, not kept. -/
theorem claim_C3_counterexample :
    dedupByParam cParse [rowBad, rowT1] = [rowBad] ∧
    dedupByParam cParse [rowBad, rowT1] ≠ [rowT1] := by
  decide

/-- Claim C3, amended: the comparison is a total function (it cannot
throw), and it returns false whenever either timestamp fails to parse — so
an invalid-timestamp row never replaces a kept row, but a valid-timestamp
row also never replaces a previously kept invalid-timestamp row; a
replacement happens exactly when both timestamps parse and the incoming
one is strictly later. -/
theorem claim_C3_amended (parse : Option String → Option Int) (a b : Option String) :
    ((parse a = none ∨ parse b = none) → jsDateGT parse a b = false) ∧
    (jsDateGT parse a b = true ↔
      ∃ x y, parse a = some x ∧ parse b = some y ∧ y < x) := by
  constructor
  · intro hcase
    cases hgt : jsDateGT parse a b with
    | false => rfl
    | true =>
      rcases jsDateGT_iff.mp hgt with ⟨x, y, hx, hy, _⟩
      rcases hcase with hcase | hcase
      · rw [hcase] at hx
        exact absurd hx (by simp)
      · rw [hcase] at hy
        exact absurd hy (by simp)
  · exact jsDateGT_iff

/-- Witness for the amended C3: comparing an unparsable timestamp against
a valid one yields false, keeping whichever row was already kept. -/
theorem claim_C3_amended_witness :
    jsDateGT cParse (some "t1") (some "bad") = false :=
  (claim_C3_amended cParse (some "t1") (some "bad")).1 (Or.inr rfl)

/-! ### Claim C10 -/

/-- A list with no duplicates holds the element `none` at most once. -/
theorem countP_eq_none_le_one {l : List (Option String)} (h : l.Nodup) :
    l.countP (fun k => decide (k = none)) ≤ 1 := by
  induction l with
  | nil => simp
  | cons a t ih =>
    rw [List.nodup_cons] at h
    obtain ⟨ha, ht⟩ := h
    by_cases hk : a = none
    · subst hk
      have hz : t.countP (fun k => decide (k = none)) = 0 := by
        rw [List.countP_eq_zero]
        intro b hb
        simp only [decide_eq_true_eq]
        intro hbn
        subst hbn
        exact ha hb
      simp [List.countP_cons, hz]
    · rw [List.countP_cons, if_neg (by simp [hk])]
      simpa using ih ht

/-- Claim C10: every returned row is an element of the input row set (no
row is synthesized or modified), and rows lacking a `PARAMETER` attribute
collapse into at most one returned entry — keyed by the absent value —
rather than each producing its own entry or being dropped. -/
theorem claim_C10 (parse : Option String → Option Int) (rows : List Props) :
    (∀ r ∈ dedupByParam parse rows, r ∈ rows) ∧
    (dedupByParam parse rows).countP (fun r => decide (r.PARAMETER = none)) ≤ 1 ∧
    ((∃ r ∈ rows, r.PARAMETER = none) →
      ∃ kept ∈ dedupByParam parse rows, kept.PARAMETER = none) := by
  have hinv := dedupInv_main parse rows
  have hkeys := dedupByParam_keys parse rows
  refine ⟨?_, ?_, ?_⟩
  · intro r hr
    rcases List.mem_map.mp hr with ⟨kv, hkv, hsnd⟩
    subst hsnd
    exact hinv.mem kv hkv
  · have h1 : ((dedupByParam parse rows).map Props.PARAMETER).Nodup := by
      rw [hkeys]
      exact hinv.nodup
    have h2 := countP_eq_none_le_one h1
    rw [List.countP_map] at h2
    simpa [Function.comp] using h2
  · rintro ⟨r, hr, hrp⟩
    have hk : (none : Option String) ∈ (dedupByParam parse rows).map Props.PARAMETER := by
      rw [hkeys]
      exact (hinv.keys none).mpr (List.mem_map.mpr ⟨r, hr, hrp⟩)
    rcases List.mem_map.mp hk with ⟨kept, hkept, hkp⟩
    exact ⟨kept, hkept, hkp⟩

/-- Witness for C10: two rows lacking `PARAMETER` collapse to a single
returned entry keyed by the absent value. -/
theorem claim_C10_witness :
    ∃ kept ∈ dedupByParam cParse [rowNoParam, rowNoParam2], kept.PARAMETER = none :=
  (claim_C10 cParse [rowNoParam, rowNoParam2]).2.2 ⟨rowNoParam, by decide, rfl⟩

/-! ### Claim C2 -/

/-- Claim C2 as stated is false: a successful primary response that does
not contain the requested station (here a request for station B against a
primary result set holding only A) does not trigger the fallback request;
the local find-or-first match runs on the primary's own result set and
returns station A's record. -/
theorem claim_C2_counterexample :
    (fetchHydrometricStationMeta "B" (.ok jsonA) (.ok jsonABC)).2 = false ∧
    (fetchHydrometricStationMeta "B" (.ok jsonA) (.ok jsonABC)).1
      = .ok ⟨some 50, some 10, ⟨some "A", none, none, []⟩⟩ :=
  ⟨rfl, rfl⟩

/-- Claim C2, amended: the fallback request is issued exactly when the
primary request fails (rejects); when the primary succeeds — even with a
result set that does not contain the requested station — no fallback
request is issued, and the local find-or-first match by exact string
equality is applied to whichever response body was obtained. -/
theorem claim_C2_amended (sn : String) (primary fallback : Except String FeatureJson) :
    ((fetchHydrometricStationMeta sn primary fallback).2 = true ↔
      ∃ e, primary = .error e) ∧
    (∀ j, primary = .ok j →
      fetchHydrometricStationMeta sn primary fallback
        = (buildMeta sn (selectFeature sn (j.features.getD [])), false)) ∧
    (∀ e j, primary = .error e → fallback = .ok j →
      fetchHydrometricStationMeta sn primary fallback
        = (buildMeta sn (selectFeature sn (j.features.getD [])), true)) ∧
    (∀ e e', primary = .error e → fallback = .error e' →
      fetchHydrometricStationMeta sn primary fallback = (.error e', true)) := by
  cases primary <;> cases fallback <;>
    simp [fetchHydrometricStationMeta, obtainJson]

/-- Witness for the amended C2: a failing primary and a successful
fallback at concrete inputs yield the fallback-matched record with the
fallback flag set. -/
theorem claim_C2_amended_witness :
    fetchHydrometricStationMeta "B" (.error "boom") (.ok jsonABC)
      = (buildMeta "B" (selectFeature "B" [featA, featB, featC]), true) :=
  (claim_C2_amended "B" (.error "boom") (.ok jsonABC)).2.2.1 "boom" jsonABC rfl rfl

/-! ### Claim C4 -/

/-- Claim C4: the selection step picks the first result whose
station-identifier attribute, coerced to string, equals the requested id
exactly; if no result matches, it picks the first result of the set. -/
theorem claim_C4 (sn : String) (feats : List Feature) :
    (∀ l₁ f l₂, feats = l₁ ++ f :: l₂ → featStationKey f = sn →
      (∀ g ∈ l₁, featStationKey g ≠ sn) → selectFeature sn feats = some f) ∧
    ((∀ g ∈ feats, featStationKey g ≠ sn) → selectFeature sn feats = feats.head?) := by
  constructor
  · intro l₁ f l₂ hfe hf hnone
    subst hfe
    have hfind : (l₁ ++ f :: l₂).find? (fun x => featStationKey x == sn) = some f := by
      refine find?_append_first _ l₁ f l₂ (by simp [hf]) ?_
      intro g hg
      exact beq_eq_false_iff_ne.mpr (hnone g hg)
    simp [selectFeature, hfind]
  · intro hnone
    have hfind : feats.find? (fun x => featStationKey x == sn) = none := by
      rw [List.find?_eq_none]
      intro x hx
      simp [hnone x hx]
    simp [selectFeature, hfind]

/-- Witness for C4: among stations [A, B, C], a request for B selects B's
feature, and a request for X (no match) selects A's (first in set). -/
theorem claim_C4_witness :
    selectFeature "B" [featA, featB, featC] = some featB ∧
    selectFeature "X" [featA, featB, featC] = some featA := by
  constructor
  · exact (claim_C4 "B" [featA, featB, featC]).1 [featA] featB [featC] rfl
      (by decide) (by decide)
  · simpa using (claim_C4 "X" [featA, featB, featC]).2 (by decide)

/-! ### Claim C5 -/

/-- Claim C5 as stated is false: a matched feature whose coordinates array
has length 0 (≠ 2) does not raise the no-geometry error — the code only
checks `Array.isArray`, and destructuring the empty array yields an absent
latitude and longitude in a successful result. -/
theorem claim_C5_counterexample :
    buildMeta "05JF003" (some featNoLen)
      = .ok ⟨none, none, ⟨some "05JF003", none, none, []⟩⟩ :=
  rfl

/-- Claim C5, amended: the no-geometry error (naming the requested station
id) is raised exactly when the selected feature is absent, its geometry is
null/missing, or its coordinates field is not an array; when the
coordinates field is an array of any length, the first two elements
(absent when the array is shorter) are returned swapped as latitude =
element 1 and longitude = element 0, together with the feature's
attributes. -/
theorem claim_C5_amended (sn : String) (f? : Option Feature) :
    ((∃ e, buildMeta sn f? = .error e) ↔
      f? = none ∨ (∃ f, f? = some f ∧ f.geometry = none) ∨
      (∃ f g, f? = some f ∧ f.geometry = some g ∧ g.coordinates = none)) ∧
    (∀ e, buildMeta sn f? = .error e → e = "No geometry for station " ++ sn) ∧
    (∀ f, f? = some f → ∀ g, f.geometry = some g → ∀ coords, g.coordinates = some coords →
      buildMeta sn f? = .ok ⟨coords.get? 1, coords.get? 0, f.properties.getD emptyProps⟩) := by
  rcases f? with _ | ⟨p, g⟩
  · simp [buildMeta]
  · rcases g with _ | ⟨c⟩
    · simp [buildMeta]
    · rcases c with _ | l
      · simp [buildMeta]
      · simp [buildMeta]

/-- Witness for the amended C5: station B's feature with coordinates
[11, 51] resolves to latitude 51, longitude 11 and B's attributes. -/
theorem claim_C5_amended_witness :
    buildMeta "05JF003" (some featB) = .ok ⟨some 51, some 11, ⟨some "B", none, none, []⟩⟩ :=
  (claim_C5_amended "05JF003" (some featB)).2.2 featB rfl ⟨some [11, 51]⟩ rfl [11, 51] rfl

/-! ### Claim C6 -/

/-- Claim C6: when an incoming row's parsed timestamp equals the parsed
timestamp of the row already kept for the same parameter key, the dedup
step leaves the map unchanged — the row folded first is kept and the
later-folded row is discarded. -/
theorem claim_C6 (parse : Option String → Option Int)
    (m : List (Option String × Props)) (row prev : Props)
    (hprev : getAssoc row.PARAMETER m = some prev)
    (heq : parse row.DATE = parse prev.DATE) :
    dedupStep parse m row = m := by
  have hgt : jsDateGT parse row.DATE prev.DATE = false := by
    unfold jsDateGT
    rw [heq]
    cases parse prev.DATE with
    | none => rfl
    | some x => simp
  unfold dedupStep
  rw [hprev]
  simp [hgt]

/-- Witness for C6: two Level rows with equal timestamp t1 — the kept
first row survives, the second is discarded. -/
theorem claim_C6_witness :
    dedupStep cParse [(some "Level", rowT1)] rowT1dup = [(some "Level", rowT1)] :=
  claim_C6 cParse [(some "Level", rowT1)] rowT1dup rowT1 rfl rfl

/-! ### Claim C7 -/

/-- Claim C7: when the obtained response yields zero rows for the
requested station after local filtering, the operation returns the empty
sequence, not an error; and an error is returned exactly when the primary
request failed and the fallback request also failed (the fallback's error
propagates). -/
theorem claim_C7 (sn : String) (parse : Option String → Option Int)
    (primary fallback : Except String FeatureJson) :
    (∀ j, (obtainJson primary fallback).1 = .ok j →
      localFilter sn ((j.features.getD []).map (fun f => f.properties.getD emptyProps)) = [] →
      fetchHydrometricRealtimeLatest sn parse primary fallback = .ok []) ∧
    (∀ e, fetchHydrometricRealtimeLatest sn parse primary fallback = .error e ↔
      ((∃ ep, primary = .error ep) ∧ fallback = .error e)) := by
  constructor
  · intro j hj hrows
    cases primary with
    | ok jp =>
      simp only [obtainJson, Except.ok.injEq] at hj
      subst hj
      simp [fetchHydrometricRealtimeLatest, obtainJson, hrows, dedupByParam, dedupAssoc]
    | error ep =>
      cases fallback with
      | ok jf =>
        simp only [obtainJson, Except.ok.injEq] at hj
        subst hj
        simp [fetchHydrometricRealtimeLatest, obtainJson, hrows, dedupByParam, dedupAssoc]
      | error ef =>
        simp [obtainJson] at hj
  · intro e
    cases primary <;> cases fallback <;>
      simp [fetchHydrometricRealtimeLatest, obtainJson]

/-- Witness for C7: a failed primary and a successful-but-empty fallback
produce the empty sequence without error. -/
theorem claim_C7_witness :
    fetchHydrometricRealtimeLatest "05JF003" cParse (.error "boom") (.ok jsonEmpty)
      = .ok [] :=
  (claim_C7 "05JF003" cParse (.error "boom") (.ok jsonEmpty)).1 jsonEmpty rfl rfl

/-! ### Claim C8 -/

/-- Claim C8 as stated is false: the error raised on a non-success
response does not carry the requested endpoint — two requests to different
endpoints that receive the same status-500 response produce identical
errors, whose message names only the status. -/
theorem claim_C8_counterexample :
    fetchArcGISLayerGeoJSON "https://hostA.example/FeatureServer/0" resp500
      = fetchArcGISLayerGeoJSON "https://hostB.example/FeatureServer/7" resp500 ∧
    fetchArcGISLayerGeoJSON "https://hostA.example/FeatureServer/0" resp500
      = .error "ArcGIS layer: 500" :=
  ⟨rfl, rfl⟩

/-- Claim C8, amended: on any non-success response the operation raises an
error whose message carries the HTTP status (but not the endpoint),
immediately and with no fallback or retry; on success it returns the
server's body verbatim, with nothing added, removed, or renamed. -/
theorem claim_C8_amended {α : Type} (endpoint : String) (resp : HttpResponse α) :
    (resp.ok = false →
      fetchArcGISLayerGeoJSON endpoint resp
        = .error ("ArcGIS layer: " ++ toString resp.status)) ∧
    (resp.ok = true → fetchArcGISLayerGeoJSON endpoint resp = .ok resp.body) := by
  constructor <;> intro h <;> simp [fetchArcGISLayerGeoJSON, h]

/-- Witness for the amended C8: a successful response's body is returned
verbatim. -/
theorem claim_C8_amended_witness :
    fetchArcGISLayerGeoJSON "https://hostA.example/FeatureServer/0"
      (⟨true, 200, 7⟩ : HttpResponse Nat) = .ok 7 :=
  (claim_C8_amended "https://hostA.example/FeatureServer/0" ⟨true, 200, 7⟩).2 rfl

/-! ### Claim C9 -/

/-- Claim C9: `tryOrNull` is total over outcomes — it returns the resolved
value on fulfilment and returns null (never raising) on rejection, for
every rejection value including ones with no message field. -/
theorem claim_C9 {α : Type} (label : String) (outcome : Except RejectionValue α) :
    (∀ v, outcome = .ok v → tryOrNull label outcome = (some v, [])) ∧
    (∀ e, outcome = .error e → (tryOrNull label outcome).1 = none) := by
  cases outcome <;> simp [tryOrNull]

/-- Witness for C9: a rejection value without a message field still yields
null. -/
theorem claim_C9_witness :
    (tryOrNull "realtime 05JF003:" (.error noMsgRejection : Except RejectionValue Nat)).1
      = none :=
  (claim_C9 "realtime 05JF003:" (.error noMsgRejection)).2 noMsgRejection rfl

end Water
